import Mathlib

/-!
Verification of the options-trading recommendation pipeline.

The development shallowly embeds the quantitative core of the repository:
the pricing and scoring library (`src/lib/calculations.js`), the basic
criteria filter and per-symbol processing of the recommendation engine
(`src/lib/recommendationEngine.js`), the sliding-window rate limiter
(`src/lib/rateLimiter.js`), the TTL cache store (`cache.js`), the earnings
gateway error policy (`earnings.js`), and the run-level fallback policy of
`generateRecommendations`.

JavaScript numbers are modelled as real numbers; timestamps (milliseconds
since the epoch) are real numbers for the engine and integers for the rate
limiter and cache, whose logic is purely discrete.  Asynchronous I/O is
modelled by passing the outcome of each external interaction (fetch
results, database outcomes, random backoff jitter) as explicit
environment data.
-/

noncomputable section

/-- Translation of `erf` from `calculations.js`: the Abramowitz-Stegun
five-coefficient approximation of the error function. -/
def erf (x : ℝ) : ℝ :=
  let a1 : ℝ := 0.254829592
  let a2 : ℝ := -0.284496736
  let a3 : ℝ := 1.421413741
  let a4 : ℝ := -1.453152027
  let a5 : ℝ := 1.061405429
  let p : ℝ := 0.3275911
  let sign : ℝ := if 0 ≤ x then 1 else -1
  let ax := |x|
  let t := 1.0 / (1.0 + p * ax)
  let y := 1.0 - (((((a5 * t + a4) * t) + a3) * t + a2) * t + a1) * t * Real.exp (-ax * ax)
  sign * y

/-- Translation of `normalCDF` from `calculations.js`. -/
def normalCDF (x : ℝ) : ℝ :=
  0.5 * (1 + erf (x / Real.sqrt 2))

/-- Translation of `calculatePOP` from `calculations.js`. -/
def calculatePOP (stockPrice strikePrice timeToExpiry riskFreeRate impliedVolatility : ℝ) : ℝ :=
  if timeToExpiry ≤ 0 ∨ impliedVolatility ≤ 0 then 0
  else
    normalCDF ((Real.log (stockPrice / strikePrice) +
        (riskFreeRate - 0.5 * impliedVolatility ^ 2) * timeToExpiry) /
      (impliedVolatility * Real.sqrt timeToExpiry)) * 100

/-- Written from the spec sentence: the Black-Scholes `d2` term
`(ln(S/K) + (r - 0.5*sigma^2)*T) / (sigma*sqrt(T))`, used to compare the
source `calculatePOP` against the specified formula. -/
def d2Spec (stockPrice strikePrice timeToExpiry riskFreeRate impliedVolatility : ℝ) : ℝ :=
  (Real.log (stockPrice / strikePrice) +
      (riskFreeRate - 0.5 * impliedVolatility ^ 2) * timeToExpiry) /
    (impliedVolatility * Real.sqrt timeToExpiry)

/-- Written from the spec sentence: the Abramowitz-Stegun error-function
approximation with coefficients `a1=0.254829592, a2=-0.284496736,
a3=1.421413741, a4=-1.453152027, a5=1.061405429, p=0.3275911`. -/
def erfSpecAS (x : ℝ) : ℝ :=
  let a1 : ℝ := 0.254829592
  let a2 : ℝ := -0.284496736
  let a3 : ℝ := 1.421413741
  let a4 : ℝ := -1.453152027
  let a5 : ℝ := 1.061405429
  let p : ℝ := 0.3275911
  let sign : ℝ := if 0 ≤ x then 1 else -1
  let ax := |x|
  let t := 1.0 / (1.0 + p * ax)
  let y := 1.0 - (((((a5 * t + a4) * t) + a3) * t + a2) * t + a1) * t * Real.exp (-ax * ax)
  sign * y

/-- Written from the spec sentence: the standard normal CDF built from the
Abramowitz-Stegun error-function approximation. -/
def normalCDFSpec (x : ℝ) : ℝ :=
  0.5 * (1 + erfSpecAS (x / Real.sqrt 2))

/-- Translation of the `ivScore` sub-score of `calculateConfidenceScore`. -/
def ivScore (impliedVol : ℝ) : ℝ := max 0 (100 - impliedVol * 200)

/-- Translation of the `oiScore` sub-score of `calculateConfidenceScore`. -/
def oiScore (openInterest : ℝ) : ℝ := min 100 (Real.logb 10 (max 1 openInterest) * 25)

/-- Translation of the `volumeScore` sub-score of `calculateConfidenceScore`. -/
def volumeScore (volume : ℝ) : ℝ := min 100 (Real.logb 10 (max 1 volume) * 20)

/-- Translation of the `epsScore` sub-score of `calculateConfidenceScore`. -/
def epsScore (epsGrowth : ℝ) : ℝ := max 0 (min 100 ((epsGrowth + 50) * 1.33))

/-- Translation of the `popScore` sub-score of `calculateConfidenceScore`. -/
def popScore (pop : ℝ) : ℝ := max 0 (min 100 pop)

/-- Translation of the `premiumScore` sub-score of `calculateConfidenceScore`. -/
def premiumScore (premiumPct : ℝ) : ℝ := min 100 (premiumPct * 20)

/-- Translation of `calculateConfidenceScore` from `calculations.js`. -/
def calculateConfidenceScore (impliedVol openInterest volume epsGrowth pop premiumPct : ℝ) : ℝ :=
  max 0 (min 100
    (ivScore impliedVol * 0.25 +
     oiScore openInterest * 0.20 +
     volumeScore volume * 0.20 +
     epsScore epsGrowth * 0.15 +
     popScore pop * 0.10 +
     premiumScore premiumPct * 0.10))

/-- Translation of `calculateTimeToExpiry` from `calculations.js`, with the
current clock and the expiration instant passed as millisecond timestamps. -/
def calculateTimeToExpiry (now expiration : ℝ) : ℝ :=
  max 0 ((expiration - now) / (1000 * 60 * 60 * 24) / 365.25)

/-- Translation of `calculateBreakeven` from `calculations.js`. -/
def calculateBreakeven (strikePrice premium : ℝ) : ℝ := strikePrice - premium

/-- Translation of `calculateMaxLoss` from `calculations.js`. -/
def calculateMaxLoss (strikePrice premium : ℝ) : ℝ := (strikePrice - premium) * 100

/-- Translation of `calculatePremiumPercentage` from `calculations.js`. -/
def calculatePremiumPercentage (premium stockPrice : ℝ) : ℝ :=
  if stockPrice ≤ 0 then 0 else premium / stockPrice * 100

end

/-- Helper used to model `String.prototype.includes`: Boolean test of
whether the first list is an initial segment of the second. -/
def isPrefixL : List Char → List Char → Bool
  | [], _ => true
  | _ :: _, [] => false
  | a :: as, b :: bs => (a == b) && isPrefixL as bs

/-- Helper used to model `String.prototype.includes`: Boolean test of
whether the first list occurs contiguously inside the second. -/
def occursIn (needle : List Char) : List Char → Bool
  | [] => isPrefixL needle []
  | c :: rest => isPrefixL needle (c :: rest) || occursIn needle rest

/-- Model of the JavaScript expression `s.includes(sub)`. -/
def strIncludes (s sub : String) : Bool :=
  occursIn sub.toList s.toList

/-- Model of the JavaScript regular-expression test for a digit in a
symbol. -/
def hasDigit (s : String) : Bool :=
  s.toList.any Char.isDigit

/-- Translation of the symbol filter shared by `processEarningsData` in
`earnings.js`: length 1 to 5, none of the characters dot, dash, slash, and
no digit. -/
def validSymbol (s : String) : Bool :=
  decide (1 ≤ s.length) && decide (s.length ≤ 5) &&
  !(strIncludes s (".")) && !(strIncludes s ("-")) && !(strIncludes s ("/")) &&
  !(hasDigit s)

/-- Configuration of a `RateLimiter` from `rateLimiter.js`. -/
structure RLConfig where
  maxRequests : ℕ
  windowMs : ℤ
  maxRetries : ℕ

/-- Mutable state of a `RateLimiter`: retained request timestamps and the
consecutive-throttle counter. -/
structure RLState where
  requests : List ℤ
  retryCount : ℕ

/-- Observable outcome of one attempt inside `checkLimit`: an immediate
grant, a throttle that sleeps for the computed delay and retries, or the
rate-limit-exceeded error carrying the suggested wait time. -/
inductive RLOutcome where
  | granted : RLOutcome
  | throttled : ℤ → RLOutcome
  | failed : ℤ → RLOutcome
deriving DecidableEq

/-- Translation of the window filter in `checkLimit`: keep timestamps
strictly newer than `now - windowMs`. -/
def rlFilter (cfg : RLConfig) (now : ℤ) (l : List ℤ) : List ℤ :=
  l.filter (fun t => decide (now - cfg.windowMs < t))

/-- Translation of one attempt of `RateLimiter.checkLimit` from
`rateLimiter.js`, at clock `now`, with the jittered exponential-backoff
delay of this attempt passed in as `backoff` (the source computes it from
`Math.random`). -/
def checkLimitStep (cfg : RLConfig) (st : RLState) (now backoff : ℤ) : RLOutcome × RLState :=
  let filtered := rlFilter cfg now st.requests
  if cfg.maxRequests ≤ filtered.length then
    let oldest := (filtered.min?).getD 0
    let waitTime := cfg.windowMs - (now - oldest)
    let totalDelay := max waitTime backoff
    if cfg.maxRetries ≤ st.retryCount then
      (RLOutcome.failed totalDelay, ⟨filtered, 0⟩)
    else
      (RLOutcome.throttled totalDelay, ⟨filtered, st.retryCount + 1⟩)
  else
    (RLOutcome.granted, ⟨filtered ++ [now], 0⟩)

/-- Run of a sequence of `checkLimit` attempts: each list entry is the clock
value and the backoff draw of that attempt; the recursion of `checkLimit`
after a throttle is the next entry of the list, at a later clock. -/
def runLimiter (cfg : RLConfig) (st : RLState) : List (ℤ × ℤ) → RLState × List (ℤ × RLOutcome)
  | [] => (st, [])
  | a :: rest =>
    let step := checkLimitStep cfg st a.1 a.2
    let tail := runLimiter cfg step.2 rest
    (tail.1, (a.1, step.1) :: tail.2)

/-- Timestamps of the granted acquisitions of a run. -/
def grantedTimes (l : List (ℤ × RLOutcome)) : List ℤ :=
  l.filterMap (fun p => if p.2 = RLOutcome.granted then some p.1 else none)

/-- Number of timestamps of `l` inside the trailing window `(T - w, T]`. -/
def windowCount (w T : ℤ) (l : List ℤ) : ℕ :=
  (l.filter (fun t => decide (T - w < t ∧ t ≤ T))).length

/-- Outcome of the database interaction behind one cache call in
`cache.js`: a normal reply, a query error reported in the reply, or a
thrown exception. -/
inductive DbOutcome where
  | ok : DbOutcome
  | queryError : DbOutcome
  | exn : DbOutcome
deriving DecidableEq

/-- Contents of the `api_cache` table, keyed by `cache_key`, holding the
stored value and its `expires_at` timestamp; at most one entry per key. -/
def Cache (α : Type) := String → Option (α × ℤ)

/-- Translation of `getCachedData` from `cache.js`: the query selects the
row for `cacheKey` whose `expires_at` is strictly in the future; a query
error, a thrown exception, a missing row and an expired row all yield
`none`. -/
def getCachedData {α : Type} (db : DbOutcome) (st : Cache α) (now : ℤ) (cacheKey : String) :
    Option α :=
  match db with
  | DbOutcome.ok =>
    match st cacheKey with
    | none => none
    | some entry => if now < entry.2 then some entry.1 else none
  | DbOutcome.queryError => none
  | DbOutcome.exn => none

/-- Translation of `setCachedData` from `cache.js`: on a normal database
reply the entry for `cacheKey` is upserted (update if present, else
insert) with `expires_at = now + expirationMinutes` minutes and the call
returns `true`; a reported write error or a thrown exception returns
`false` and leaves the table unchanged. -/
def setCachedData {α : Type} (db : DbOutcome) (st : Cache α) (now : ℤ) (cacheKey : String)
    (v : α) (expirationMinutes : ℤ) : Bool × Cache α :=
  match db with
  | DbOutcome.ok =>
    (true, fun k => if k = cacheKey then some (v, now + expirationMinutes * 60 * 1000) else st k)
  | DbOutcome.queryError => (false, st)
  | DbOutcome.exn => (false, st)

noncomputable section

open scoped Classical

/-- Filtering criteria held by `RecommendationEngine` (its constructor
fields, all mutable through `updateCriteria`). -/
structure Criteria where
  minDelta : ℝ
  minPremiumPercentage : ℝ
  minPOP : ℝ
  maxPOP : ℝ
  maxDaysToExpiry : ℤ
  minDaysToExpiry : ℤ
  maxSymbolsToProcess : ℕ
  minMarketCap : ℝ
  minVolume : ℝ
  minOpenInterest : ℝ

/-- Default criteria set in the `RecommendationEngine` constructor. -/
def defaultCriteria : Criteria :=
  ⟨0.2, 3.5, 87, 93, 14, 1, 50, 1000000000, 10, 50⟩

/-- One put contract of an options chain, with its expiration as a
millisecond timestamp. -/
structure OptionContract where
  strike : ℝ
  expiration : ℝ
  premium : ℝ
  delta : ℝ
  impliedVolatility : ℝ
  volume : ℝ
  openInterest : ℝ

/-- One processed earnings-calendar entry, with the announcement date as a
millisecond timestamp; `epsGrowth`, `marketCap` and `revenue` are numbers,
where the value 0 plays the role of the falsy missing value of the
source. -/
structure Earning where
  symbol : String
  date : ℝ
  epsGrowth : ℝ
  marketCap : ℝ
  revenue : ℝ

/-- One recommendation record as built by `processSymbol` in
`recommendationEngine.js`. -/
structure Recommendation where
  symbol : String
  strike_price : ℝ
  expiration_date : ℝ
  premium : ℝ
  confidence_score : ℝ
  pop : ℝ
  delta : ℝ
  implied_volatility : ℝ
  premium_percentage : ℝ
  max_loss : ℝ
  breakeven : ℝ
  earnings_date : ℝ
  volume : ℝ
  open_interest : ℝ
  stock_price : ℝ
  eps_growth : ℝ
  created_at : ℝ
  is_active : Bool

/-- Translation of the days-to-expiry computation of `meetsBasicCriteria`:
the ceiling of the distance from `now` to the expiration in days. -/
def daysToExpiry (now expiration : ℝ) : ℤ :=
  ⌈(expiration - now) / (1000 * 60 * 60 * 24)⌉

/-- Translation of `RecommendationEngine.meetsBasicCriteria`: the
conjunction of the six checks of the source, in source order.  The premium
percentage is the guarded `calculatePremiumPercentage` the source calls. -/
def meetsBasicCriteria (c : Criteria) (now : ℝ) (o : OptionContract)
    (stockPrice earningsDate : ℝ) : Prop :=
  |o.delta| ≤ c.minDelta ∧
  c.minPremiumPercentage ≤ calculatePremiumPercentage o.premium stockPrice ∧
  c.minDaysToExpiry ≤ daysToExpiry now o.expiration ∧
  daysToExpiry now o.expiration ≤ c.maxDaysToExpiry ∧
  earningsDate < o.expiration ∧
  c.minVolume ≤ o.volume ∧
  c.minOpenInterest ≤ o.openInterest ∧
  0 < o.premium ∧ o.premium ≤ stockPrice * 0.1

/-- Written from the claim: the basic-criteria filter with the premium
percentage spelled as the bare `premium/stockPrice*100`. -/
def basicCriteriaSpec (c : Criteria) (now : ℝ) (o : OptionContract)
    (stockPrice earningsDate : ℝ) : Prop :=
  |o.delta| ≤ c.minDelta ∧
  o.premium / stockPrice * 100 ≥ c.minPremiumPercentage ∧
  c.minDaysToExpiry ≤ daysToExpiry now o.expiration ∧
  daysToExpiry now o.expiration ≤ c.maxDaysToExpiry ∧
  earningsDate < o.expiration ∧
  c.minVolume ≤ o.volume ∧
  c.minOpenInterest ≤ o.openInterest ∧
  0 < o.premium ∧ o.premium ≤ stockPrice * 0.1

/-- POP of one contract as computed inside `processSymbol`: risk-free rate
0.05, time to expiry from the contract's expiration. -/
def popOf (now stockPrice : ℝ) (o : OptionContract) : ℝ :=
  calculatePOP stockPrice o.strike (calculateTimeToExpiry now o.expiration) 0.05
    o.impliedVolatility

/-- Recommendation record built by `processSymbol` for a surviving
contract.  The source expression `earnings.epsGrowth || 0` is the identity
on numbers (0 for the falsy 0), so it is `earn.epsGrowth` here. -/
def mkRecommendation (symbol : String) (earn : Earning) (now stockPrice : ℝ)
    (o : OptionContract) (pop : ℝ) : Recommendation where
  symbol := symbol
  strike_price := o.strike
  expiration_date := o.expiration
  premium := o.premium
  confidence_score := calculateConfidenceScore o.impliedVolatility o.openInterest o.volume
    earn.epsGrowth pop (calculatePremiumPercentage o.premium stockPrice)
  pop := pop
  delta := |o.delta|
  implied_volatility := o.impliedVolatility
  premium_percentage := calculatePremiumPercentage o.premium stockPrice
  max_loss := calculateMaxLoss o.strike o.premium
  breakeven := calculateBreakeven o.strike o.premium
  earnings_date := earn.date
  volume := o.volume
  open_interest := o.openInterest
  stock_price := stockPrice
  eps_growth := earn.epsGrowth
  created_at := now
  is_active := true

/-- Translation of `RecommendationEngine.processSymbol`: reject an invalid
stock price, then keep every contract that passes `meetsBasicCriteria` and
whose POP lies in the configured band, emitting its recommendation
record. -/
def processSymbol (c : Criteria) (now : ℝ) (symbol : String) (earn : Earning)
    (options : List OptionContract) (underlyingPrice : ℝ) : List Recommendation :=
  if underlyingPrice ≤ 0 then []
  else
    options.filterMap (fun o =>
      if meetsBasicCriteria c now o underlyingPrice earn.date then
        if popOf now underlyingPrice o < c.minPOP ∨ c.maxPOP < popOf now underlyingPrice o then
          none
        else
          some (mkRecommendation symbol earn now underlyingPrice o (popOf now underlyingPrice o))
      else none)

/-- Scored symbol produced during `prioritizeSymbols`. -/
structure ScoredSymbol where
  symbol : String
  score : ℝ
  earning : Earning

/-- Hard-coded bonus list of `prioritizeSymbols`. -/
def megaCapSymbols : List String :=
  ["AAPL", "MSFT", "GOOGL", "AMZN", "TSLA", "NVDA", "META", "NFLX"]

/-- Translation of the priority-score computation of `prioritizeSymbols`;
each truthiness guard of the source is a comparison with the falsy 0. -/
def scoreEarning (e : Earning) : ScoredSymbol :=
  let s1 : ℝ :=
    if e.marketCap ≠ 0 then min 50 (Real.logb 10 (e.marketCap / 1000000000) * 10) else 0
  let s2 : ℝ := if e.epsGrowth ≠ 0 then max (-10) (min 20 (e.epsGrowth / 5)) else 0
  let s3 : ℝ := if e.revenue ≠ 0 then min 20 (Real.logb 10 (e.revenue / 1000) * 5) else 0
  let s4 : ℝ := (6 - (e.symbol.length : ℝ)) * 2
  let s5 : ℝ := if megaCapSymbols.contains e.symbol.toUpper then 30 else 0
  ⟨e.symbol, s1 + s2 + s3 + s4 + s5, e⟩

/-- Translation of the filter stage of `prioritizeSymbols`: symbol length
1 to 5, no dot, dash, slash, no digit, and the market-cap floor applies
only when the `marketCap` field is truthy. -/
def passesPriorityFilter (c : Criteria) (e : Earning) : Prop :=
  1 ≤ e.symbol.length ∧ e.symbol.length ≤ 5 ∧
  strIncludes e.symbol (".") = false ∧
  strIncludes e.symbol ("-") = false ∧
  strIncludes e.symbol ("/") = false ∧
  hasDigit e.symbol = false ∧
  (e.marketCap ≠ 0 → c.minMarketCap ≤ e.marketCap)

instance (c : Criteria) (e : Earning) : Decidable (passesPriorityFilter c e) :=
  decidable_of_iff
    (1 ≤ e.symbol.length ∧ e.symbol.length ≤ 5 ∧
      strIncludes e.symbol (".") = false ∧
      strIncludes e.symbol ("-") = false ∧
      strIncludes e.symbol ("/") = false ∧
      hasDigit e.symbol = false ∧
      (e.marketCap ≠ 0 → c.minMarketCap ≤ e.marketCap)) Iff.rfl

/-- Descending order on priority scores, as used by the sort comparator of
`prioritizeSymbols`. -/
def scoreDesc (a b : ScoredSymbol) : Prop := b.score ≤ a.score

instance : DecidableRel scoreDesc := fun _ _ => Classical.propDecidable _

instance : IsTotal ScoredSymbol scoreDesc := ⟨fun a b => le_total b.score a.score⟩

instance : IsTrans ScoredSymbol scoreDesc := ⟨fun _ _ _ h1 h2 => le_trans h2 h1⟩

/-- Translation of `prioritizeSymbols` up to the final projection to plain
symbols: filter, score, sort descending by score, truncate. -/
def prioritizeScored (c : Criteria) (earningsData : List Earning) : List ScoredSymbol :=
  (List.insertionSort scoreDesc
    ((earningsData.filter (fun e => decide (passesPriorityFilter c e))).map scoreEarning)).take
    c.maxSymbolsToProcess

/-- Translation of `RecommendationEngine.prioritizeSymbols`. -/
def prioritizeSymbols (c : Criteria) (earningsData : List Earning) : List String :=
  (prioritizeScored c earningsData).map (fun x => x.symbol)

/-- Error thrown by the API client or the rate limiter in `earnings.js`:
an optional HTTP status and a message. -/
structure ApiError where
  status : Option ℤ
  message : String

/-- Translation of the rate-limit test of the catch block of
`getEarningsCalendar`: status 429 or a message containing `Limit Reach`. -/
def isRateLimitError (e : ApiError) : Prop :=
  e.status = some 429 ∨ strIncludes e.message ("Limit Reach") = true

instance (e : ApiError) : Decidable (isRateLimitError e) :=
  decidable_of_iff (e.status = some 429 ∨ strIncludes e.message ("Limit Reach") = true) Iff.rfl

/-- One raw earnings-calendar entry as returned by the upstream API. -/
structure RawEarning where
  symbol : String
  date : ℝ
  marketCap : ℝ
  revenue : ℝ

/-- Translation of `processEarningsData` from `earnings.js`: keep entries
with a valid symbol and attach the per-symbol EPS growth computed by the
batched lookups, whose joined results are the function `epsGrowthOf`
(a failed lookup degrades to growth 0 there). -/
def processEarningsData (epsGrowthOf : String → ℝ) (rawData : List RawEarning) : List Earning :=
  (rawData.filter (fun e => validSymbol e.symbol)).map
    (fun e => ⟨e.symbol, e.date, epsGrowthOf e.symbol, e.marketCap, e.revenue⟩)

/-- Environment of one live `getEarningsCalendar` call: the fresh-cache
read for its cache key, the outcome of the gated upstream fetch (including
the invalid-response rejection), the joined EPS-growth results, and the
stale-cache read for the `_stale` key. -/
structure EarnEnv where
  cacheHit : Option (List Earning)
  fetchResult : Except ApiError (List RawEarning)
  epsGrowthOf : String → ℝ
  staleCache : Option (List Earning)

/-- Translation of the live path of `getEarningsCalendar` from
`earnings.js`: cache hit short-circuits; a successful fetch is processed
and returned; a failed fetch falls back to the stale cache and then to the
empty list only when the error is rate-limit flavoured, and is rethrown
otherwise. -/
def getEarningsCalendar (env : EarnEnv) : Except ApiError (List Earning) :=
  match env.cacheHit with
  | some d => Except.ok d
  | none =>
    match env.fetchResult with
    | Except.ok raw => Except.ok (processEarningsData env.epsGrowthOf raw)
    | Except.error e =>
      if isRateLimitError e then
        match env.staleCache with
        | some s => Except.ok s
        | none => Except.ok []
      else Except.error e

/-- Error value inside `generateRecommendations`. -/
structure JsError where
  message : String

/-- Translation of the rate-limit test of the earnings catch block of
`generateRecommendations`: the message contains `rate limit` or `429`. -/
def isRateLimitMessage (e : JsError) : Prop :=
  strIncludes e.message ("rate limit") = true ∨ strIncludes e.message ("429") = true

instance (e : JsError) : Decidable (isRateLimitMessage e) :=
  decidable_of_iff
    (strIncludes e.message ("rate limit") = true ∨ strIncludes e.message ("429") = true) Iff.rfl

/-- Descending order on confidence scores, as used by the final sort of
`generateRecommendations`. -/
def confidenceDesc (a b : Recommendation) : Prop :=
  b.confidence_score ≤ a.confidence_score

instance : DecidableRel confidenceDesc := fun _ _ => Classical.propDecidable _

instance : IsTotal Recommendation confidenceDesc :=
  ⟨fun a b => le_total b.confidence_score a.confidence_score⟩

instance : IsTrans Recommendation confidenceDesc := ⟨fun _ _ _ h1 h2 => le_trans h2 h1⟩

/-- Environment of one `generateRecommendations` run: the persisted active
set read by `getCachedRecommendations`, the outcome of the earnings fetch,
the concatenated recommendations of the batch stage (whose per-batch and
per-symbol errors are absorbed inside `processBatch`), and the outcome of
`saveRecommendations`. -/
structure EngineEnv where
  cachedRecs : List Recommendation
  earnings : Except JsError (List Earning)
  batchRecs : List Recommendation
  saveResult : Except JsError Unit

/-- Translation of the control flow of
`RecommendationEngine.generateRecommendations`: the earnings catch block
returns the cached set on a rate-limit message, returns the cached set on
any other error when it is non-empty and rethrows otherwise; an empty
earnings list returns the cached set; the batch results are sorted by
confidence descending and truncated to 30; an empty result returns the
cached set; a persistence failure falls back to the cached set and
rethrows when that set is empty; the outer catch turns a rethrown error
into the cached set exactly when that set is non-empty. -/
def generateRecommendations (env : EngineEnv) : Except JsError (List Recommendation) :=
  match env.earnings with
  | Except.error e =>
    if isRateLimitMessage e then Except.ok env.cachedRecs
    else if env.cachedRecs.isEmpty then Except.error e
    else Except.ok env.cachedRecs
  | Except.ok earningsData =>
    if earningsData.isEmpty then Except.ok env.cachedRecs
    else
      let sorted := (List.insertionSort confidenceDesc env.batchRecs).take 30
      if sorted.isEmpty then Except.ok env.cachedRecs
      else
        match env.saveResult with
        | Except.ok _ => Except.ok sorted
        | Except.error e =>
          if env.cachedRecs.isEmpty then Except.error e else Except.ok env.cachedRecs

/-- Concrete permissive criteria used by witnesses: delta bound 1, no
premium floor, POP band [-1, 1], expiry window [0, 0] days, no liquidity
floor. -/
def cfgW : Criteria := ⟨1, 0, -1, 1, 0, 0, 50, 0, 0, 0⟩

/-- Concrete contract used by witnesses: expires at the epoch, so its time
to expiry at clock 0 is zero and its POP is 0. -/
def optW : OptionContract := ⟨100, 0, 1, -0.5, 0.2, 10, 50⟩

/-- Concrete earnings entry used by witnesses, announced before the
contract expiration. -/
def earnW : Earning := ⟨"ABC", -1, 0, 0, 0⟩

/-- Recommendation emitted by `processSymbol` in the C10 witness run. -/
def recW : Recommendation := mkRecommendation ("ABC") earnW 0 100 optW (popOf 0 100 optW)

/-- Concrete recommendation record used by engine-level witnesses. -/
def recSimple : Recommendation :=
  ⟨"XYZ", 95, 0, 4, 50, 90, 0.15, 0.3, 4, 9100, 91, -1, 500, 1000, 100, 0, 0, true⟩

/-- Earnings-gateway environment whose upstream fetch fails with a
non-rate-limit server error while a stale copy is present. -/
def earnEnvW : EarnEnv :=
  ⟨none, Except.error ⟨some 500, "Internal Server Error"⟩, fun _ => 0, some [earnW]⟩

/-- Earnings-gateway environment whose upstream fetch fails with a 429
rate-limit error and no stale copy. -/
def earnEnvW2 : EarnEnv :=
  ⟨none, Except.error ⟨some 429, "Limit Reached"⟩, fun _ => 0, none⟩

/-- Engine environment whose earnings fetch succeeds, whose batch stage
produces one recommendation, whose persistence step fails, and whose
cached active set is empty. -/
def engineEnvW : EngineEnv :=
  ⟨[], Except.ok [earnW], [recSimple], Except.error ⟨"insert failed"⟩⟩

/-- Engine environment whose earnings fetch fails with a rate-limit
message while a prior active set exists. -/
def engineEnvW2 : EngineEnv :=
  ⟨[recSimple], Except.error ⟨"FMP rate limit reached"⟩, [], Except.ok ()⟩

/-- Earnings entry with a falsy market capitalization, used against the
market-cap floor of `prioritizeSymbols`. -/
def earnLowCap : Earning := ⟨"ABCD", 0, 0, 0, 0⟩

/-- Earnings entry with a large market capitalization, used by the C9
witness. -/
def earnBigCap : Earning := ⟨"AB", 0, 0, 2000000000, 0⟩

end

/-- C1: `calculatePOP` returns 0 whenever `timeToExpiry <= 0` or
`impliedVolatility <= 0`, and otherwise returns `normalCDF(d2) * 100` where
`d2` is the Black-Scholes term of the spec and `normalCDF` is built from the
Abramowitz-Stegun five-coefficient error-function approximation. -/
theorem calculatePOP_matches_spec :
    ∀ S K T r sigma : ℝ,
      ((T ≤ 0 ∨ sigma ≤ 0) → calculatePOP S K T r sigma = 0) ∧
      (0 < T → 0 < sigma →
        calculatePOP S K T r sigma = normalCDFSpec (d2Spec S K T r sigma) * 100) := by
  intro S K T r sigma
  constructor
  · intro h
    unfold calculatePOP
    rw [if_pos h]
  · intro hT hs
    have h : ¬ (T ≤ 0 ∨ sigma ≤ 0) := by
      push_neg
      exact ⟨hT, hs⟩
    unfold calculatePOP
    rw [if_neg h]
    rfl

/-- Witness for C1 at concrete inputs. -/
theorem calculatePOP_matches_spec_witness :
    (((0 : ℝ) ≤ 0 ∨ (0.3 : ℝ) ≤ 0) ∧ calculatePOP 100 95 0 0.05 0.3 = 0) ∧
    ((0 : ℝ) < 1 ∧ (0 : ℝ) < 0.3 ∧
      calculatePOP 100 95 1 0.05 0.3 = normalCDFSpec (d2Spec 100 95 1 0.05 0.3) * 100) :=
  ⟨⟨Or.inl le_rfl, (calculatePOP_matches_spec 100 95 0 0.05 0.3).1 (Or.inl le_rfl)⟩,
   ⟨one_pos, by norm_num,
    (calculatePOP_matches_spec 100 95 1 0.05 0.3).2 one_pos (by norm_num)⟩⟩

/-- C2: the result of `calculateConfidenceScore` lies in the closed interval
`[0, 100]` for every real-valued combination of the six inputs. -/
theorem calculateConfidenceScore_in_range :
    ∀ impliedVol openInterest volume epsGrowth pop premiumPct : ℝ,
      0 ≤ calculateConfidenceScore impliedVol openInterest volume epsGrowth pop premiumPct ∧
      calculateConfidenceScore impliedVol openInterest volume epsGrowth pop premiumPct ≤ 100 := by
  intro iv oi vol g p pct
  unfold calculateConfidenceScore
  exact ⟨le_max_left _ _, max_le (by norm_num) (min_le_left _ _)⟩

/-- C3 counterexample: at `impliedVol = -1` the IV sub-score is 300 > 100, and
at `premiumPct = -1` the premium sub-score is -20 < 0, so the six sub-scores
are not all independently within `[0, 100]`. -/
theorem subscore_clamp_counterexample :
    100 < ivScore (-1) ∧ premiumScore (-1) < 0 := by
  constructor
  · have h : ivScore (-1) = 300 := by
      unfold ivScore
      rw [max_eq_right] <;> norm_num
    rw [h]
    norm_num
  · have h : premiumScore (-1) = -20 := by
      unfold premiumScore
      rw [min_eq_right] <;> norm_num
    rw [h]
    norm_num

/-- C3 amended: the OI, volume, EPS-growth and POP sub-scores always lie in
`[0, 100]`; the IV sub-score is always nonnegative and is at most 100
whenever `impliedVol` is nonnegative; the premium sub-score is always at
most 100 and is nonnegative whenever `premiumPct` is nonnegative. -/
theorem subscores_clamped (impliedVol openInterest volume epsGrowth pop premiumPct : ℝ) :
    (0 ≤ ivScore impliedVol ∧ (0 ≤ impliedVol → ivScore impliedVol ≤ 100)) ∧
    (0 ≤ oiScore openInterest ∧ oiScore openInterest ≤ 100) ∧
    (0 ≤ volumeScore volume ∧ volumeScore volume ≤ 100) ∧
    (0 ≤ epsScore epsGrowth ∧ epsScore epsGrowth ≤ 100) ∧
    (0 ≤ popScore pop ∧ popScore pop ≤ 100) ∧
    ((0 ≤ premiumPct → 0 ≤ premiumScore premiumPct) ∧ premiumScore premiumPct ≤ 100) := by
  refine ⟨⟨le_max_left _ _, ?_⟩, ⟨?_, min_le_left _ _⟩, ⟨?_, min_le_left _ _⟩,
    ⟨le_max_left _ _, ?_⟩, ⟨le_max_left _ _, ?_⟩, ⟨?_, min_le_left _ _⟩⟩
  · intro h
    unfold ivScore
    refine max_le (by norm_num) ?_
    nlinarith
  · unfold oiScore
    refine le_min (by norm_num) ?_
    have hlog : 0 ≤ Real.logb 10 (max 1 openInterest) :=
      Real.logb_nonneg (by norm_num) (le_max_left 1 openInterest)
    nlinarith
  · unfold volumeScore
    refine le_min (by norm_num) ?_
    have hlog : 0 ≤ Real.logb 10 (max 1 volume) :=
      Real.logb_nonneg (by norm_num) (le_max_left 1 volume)
    nlinarith
  · unfold epsScore
    exact max_le (by norm_num) (min_le_left _ _)
  · unfold popScore
    exact max_le (by norm_num) (min_le_left _ _)
  · intro h
    unfold premiumScore
    refine le_min (by norm_num) (by nlinarith)

/-- Witness for C3's amended statement at concrete inputs. -/
theorem subscores_clamped_witness :
    (0 : ℝ) ≤ 0 ∧
    ((0 ≤ ivScore 0 ∧ ((0 : ℝ) ≤ 0 → ivScore 0 ≤ 100)) ∧
     (0 ≤ oiScore 1 ∧ oiScore 1 ≤ 100) ∧
     (0 ≤ volumeScore 1 ∧ volumeScore 1 ≤ 100) ∧
     (0 ≤ epsScore 0 ∧ epsScore 0 ≤ 100) ∧
     (0 ≤ popScore 50 ∧ popScore 50 ≤ 100) ∧
     (((0 : ℝ) ≤ 0 → 0 ≤ premiumScore 0) ∧ premiumScore 0 ≤ 100)) :=
  ⟨le_rfl, subscores_clamped 0 1 1 0 50 0⟩

/-- C4: `meetsBasicCriteria` holds exactly when all the claimed conditions
hold, for every criteria configuration, contract, stock price and earnings
date; in particular a contract with `delta = -0.25` is rejected under the
default criteria regardless of all other fields. -/
theorem meetsBasicCriteria_iff :
    (∀ (c : Criteria) (now : ℝ) (o : OptionContract) (stockPrice earningsDate : ℝ),
      meetsBasicCriteria c now o stockPrice earningsDate ↔
        basicCriteriaSpec c now o stockPrice earningsDate) ∧
    (∀ (now : ℝ) (o : OptionContract) (stockPrice earningsDate : ℝ),
      o.delta = -0.25 → ¬ meetsBasicCriteria defaultCriteria now o stockPrice earningsDate) := by
  constructor
  · intro c now o S d
    unfold meetsBasicCriteria basicCriteriaSpec
    constructor
    · rintro ⟨h1, h2, h3, h4, h5, h6, h7, h8, h9⟩
      have hS : 0 < S := by nlinarith
      rw [calculatePremiumPercentage, if_neg (not_le.mpr hS)] at h2
      exact ⟨h1, h2, h3, h4, h5, h6, h7, h8, h9⟩
    · rintro ⟨h1, h2, h3, h4, h5, h6, h7, h8, h9⟩
      have hS : 0 < S := by nlinarith
      rw [calculatePremiumPercentage, if_neg (not_le.mpr hS)]
      exact ⟨h1, h2, h3, h4, h5, h6, h7, h8, h9⟩
  · intro now o S d hdelta hmeets
    have h1 := hmeets.1
    rw [hdelta] at h1
    have habs : |(-0.25 : ℝ)| = 0.25 := by
      rw [abs_of_neg] <;> norm_num
    rw [habs] at h1
    have : defaultCriteria.minDelta = 0.2 := rfl
    rw [this] at h1
    norm_num at h1

/-- Witness for C4: a concrete contract with `delta = -0.25` is rejected
under the default criteria. -/
theorem meetsBasicCriteria_iff_witness :
    OptionContract.delta ⟨95, 0, 4, -0.25, 0.3, 500, 1000⟩ = -0.25 ∧
    ¬ meetsBasicCriteria defaultCriteria 0 ⟨95, 0, 4, -0.25, 0.3, 500, 1000⟩ 100 0 :=
  ⟨rfl, meetsBasicCriteria_iff.2 0 ⟨95, 0, 4, -0.25, 0.3, 500, 1000⟩ 100 0 rfl⟩

/-- C7: a successful `setCachedData` returns `true` and a later
`getCachedData` before the expiry instant returns exactly the stored
value; an expired entry reads as `none`; a missing entry, a query error
and a thrown exception all read as `none`. -/
theorem cache_roundtrip :
    (∀ (α : Type) (st : Cache α) (now : ℤ) (k : String) (v : α) (ttl t : ℤ),
      (setCachedData DbOutcome.ok st now k v ttl).1 = true ∧
      (t < now + ttl * 60 * 1000 →
        getCachedData DbOutcome.ok (setCachedData DbOutcome.ok st now k v ttl).2 t k = some v)) ∧
    (∀ (α : Type) (st : Cache α) (now : ℤ) (k : String) (v : α) (exp : ℤ),
      st k = some (v, exp) → exp ≤ now → getCachedData DbOutcome.ok st now k = none) ∧
    (∀ (α : Type) (st : Cache α) (now : ℤ) (k : String),
      st k = none → getCachedData DbOutcome.ok st now k = none) ∧
    (∀ (α : Type) (st : Cache α) (now : ℤ) (k : String),
      getCachedData DbOutcome.queryError st now k = none ∧
      getCachedData DbOutcome.exn st now k = none) := by
  refine ⟨?_, ?_, ?_, ?_⟩
  · intro α st now k v ttl t
    refine ⟨rfl, ?_⟩
    intro ht
    dsimp only [getCachedData, setCachedData]
    rw [if_pos rfl]
    show (if t < now + ttl * 60 * 1000 then some v else none) = some v
    rw [if_pos ht]
  · intro α st now k v exp hst hexp
    dsimp only [getCachedData]
    rw [hst]
    show (if now < exp then some v else none) = none
    rw [if_neg (not_lt.mpr hexp)]
  · intro α st now k hst
    dsimp only [getCachedData]
    rw [hst]
  · intro α st now k
    exact ⟨rfl, rfl⟩

/-- Witness for C7 at a concrete key, value, clock and TTL. -/
theorem cache_roundtrip_witness :
    ((setCachedData DbOutcome.ok (fun _ => none) 0 ("k") (7 : ℕ) 30).1 = true ∧
      getCachedData DbOutcome.ok (setCachedData DbOutcome.ok (fun _ => none) 0 ("k") (7 : ℕ) 30).2
        10 ("k") = some 7) ∧
    ((fun _ => (some ((7 : ℕ), (5 : ℤ)) : Option (ℕ × ℤ))) ("k") = some (7, 5) ∧
      getCachedData DbOutcome.ok (fun _ => some (7, 5)) 9 ("k") = none) ∧
    ((fun _ => (none : Option (ℕ × ℤ))) ("g") = none ∧
      getCachedData DbOutcome.ok (fun _ => none) 0 ("g") = (none : Option ℕ)) := by
  have h1 := (cache_roundtrip.1 ℕ (fun _ => none) 0 ("k") 7 30 10)
  have h2 := cache_roundtrip.2.1 ℕ (fun _ => some (7, 5)) 9 ("k") 7 5 rfl (by decide)
  have h3 := cache_roundtrip.2.2.1 ℕ (fun _ => none) 0 ("g") rfl
  exact ⟨⟨h1.1, h1.2 (by decide)⟩, ⟨rfl, h2⟩, ⟨rfl, h3⟩⟩

/-- C5 counterexample: an upstream fetch failure with status 500 and a
non-rate-limit message propagates out of `getEarningsCalendar` even though
a stale cached copy is present, so the gateway does not absorb every
upstream fetch failure. -/
theorem getEarningsCalendar_error_counterexample :
    earnEnvW.staleCache = some [earnW] ∧
    getEarningsCalendar earnEnvW = Except.error ⟨some 500, "Internal Server Error"⟩ := by
  refine ⟨rfl, ?_⟩
  have hnot : ¬ isRateLimitError ⟨some 500, "Internal Server Error"⟩ := by decide
  dsimp only [getEarningsCalendar, earnEnvW]
  rw [if_neg hnot]

/-- C5 amended: on a cache miss, an upstream fetch failure whose error is
rate-limit flavoured (status 429 or message containing `Limit Reach`)
makes `getEarningsCalendar` return the stale cached copy when present and
the empty array otherwise; any other upstream fetch failure propagates to
the caller. -/
theorem getEarningsCalendar_fallback (env : EarnEnv) (e : ApiError) :
    env.cacheHit = none → env.fetchResult = Except.error e →
    (isRateLimitError e → getEarningsCalendar env = Except.ok (env.staleCache.getD [])) ∧
    (¬ isRateLimitError e → getEarningsCalendar env = Except.error e) := by
  intro h1 h2
  obtain ⟨ch, fr, eg, sc⟩ := env
  dsimp only at h1 h2
  subst h1
  subst h2
  constructor
  · intro hrl
    dsimp only [getEarningsCalendar]
    rw [if_pos hrl]
    cases sc <;> rfl
  · intro hnr
    dsimp only [getEarningsCalendar]
    rw [if_neg hnr]

/-- Witness for C5's amended statement: a 429 failure with no stale copy
returns the empty array. -/
theorem getEarningsCalendar_fallback_witness :
    earnEnvW2.cacheHit = none ∧
    earnEnvW2.fetchResult = Except.error ⟨some 429, "Limit Reached"⟩ ∧
    isRateLimitError ⟨some 429, "Limit Reached"⟩ ∧
    getEarningsCalendar earnEnvW2 = Except.ok [] := by
  have h :=
    (getEarningsCalendar_fallback earnEnvW2 ⟨some 429, "Limit Reached"⟩ rfl rfl).1 (by decide)
  exact ⟨rfl, rfl, by decide, h⟩

/-- C6 counterexample: with a successful earnings fetch, a failing
persistence step and an empty cached active set, `generateRecommendations`
propagates the persistence error, so errors can propagate without an
upstream fetch failure. -/
theorem generateRecommendations_error_counterexample :
    engineEnvW.earnings = Except.ok [earnW] ∧
    generateRecommendations engineEnvW = Except.error ⟨"insert failed"⟩ := by
  refine ⟨rfl, ?_⟩
  simp [generateRecommendations, engineEnvW, List.insertionSort, List.orderedInsert]

/-- C6 amended: a rate-limit-flavoured earnings failure with a non-empty
persisted active set makes `generateRecommendations` return that prior set
unchanged; an error propagates to the caller only when the cached active
set is empty and either the earnings fetch failed with a non-rate-limit
error or the persistence step failed. -/
theorem generateRecommendations_fallback (env : EngineEnv) :
    (∀ e : JsError, env.earnings = Except.error e → isRateLimitMessage e →
      env.cachedRecs ≠ [] → generateRecommendations env = Except.ok env.cachedRecs) ∧
    (∀ e : JsError, generateRecommendations env = Except.error e →
      env.cachedRecs = [] ∧
      ((env.earnings = Except.error e ∧ ¬ isRateLimitMessage e) ∨
        env.saveResult = Except.error e)) := by
  obtain ⟨cr, er, br, sv⟩ := env
  constructor
  · intro e he hrl _
    dsimp only at he
    subst he
    dsimp only [generateRecommendations]
    rw [if_pos hrl]
  · intro e hres
    dsimp only [generateRecommendations] at hres
    cases er with
    | error e0 =>
      dsimp only at hres ⊢
      by_cases hrl : isRateLimitMessage e0
      · rw [if_pos hrl] at hres
        exact absurd hres (by simp)
      · by_cases hemp : cr.isEmpty = true
        · rw [if_neg hrl, if_pos hemp] at hres
          have he0 : e0 = e := by
            injection hres
          subst he0
          exact ⟨List.isEmpty_iff.mp hemp, Or.inl ⟨rfl, hrl⟩⟩
        · rw [if_neg hrl, if_neg hemp] at hres
          exact absurd hres (by simp)
    | ok ed =>
      dsimp only at hres ⊢
      by_cases hemp : ed.isEmpty = true
      · rw [if_pos hemp] at hres
        exact absurd hres (by simp)
      · rw [if_neg hemp] at hres
        by_cases hse : ((List.insertionSort confidenceDesc br).take 30).isEmpty = true
        · rw [if_pos hse] at hres
          exact absurd hres (by simp)
        · rw [if_neg hse] at hres
          cases sv with
          | ok u =>
            exact absurd hres (by simp)
          | error e1 =>
            dsimp only at hres
            by_cases hce : cr.isEmpty = true
            · rw [if_pos hce] at hres
              have he1 : e1 = e := by
                injection hres
              subst he1
              exact ⟨List.isEmpty_iff.mp hce, Or.inr rfl⟩
            · rw [if_neg hce] at hres
              exact absurd hres (by simp)

/-- Witness for C6's amended statement: a rate-limit earnings failure with
a non-empty prior active set returns that set unchanged. -/
theorem generateRecommendations_fallback_witness :
    engineEnvW2.earnings = Except.error ⟨"FMP rate limit reached"⟩ ∧
    isRateLimitMessage ⟨"FMP rate limit reached"⟩ ∧
    generateRecommendations engineEnvW2 = Except.ok [recSimple] := by
  have h :=
    (generateRecommendations_fallback engineEnvW2).1 ⟨"FMP rate limit reached"⟩ rfl (by decide)
      (List.cons_ne_nil recSimple [])
  exact ⟨rfl, by decide, h⟩

/-- C10: every recommendation emitted by `processSymbol` stores the
absolute delta of its source contract (nonnegative and at most
`minDelta`), a POP inside the configured band, an `is_active` flag set to
true, and premium percentage, breakeven and max loss equal to the
corresponding library functions applied to the contract and the
underlying price. -/
theorem processSymbol_invariants :
    ∀ (c : Criteria) (now : ℝ) (symbol : String) (earn : Earning)
      (options : List OptionContract) (underlyingPrice : ℝ) (r : Recommendation),
      r ∈ processSymbol c now symbol earn options underlyingPrice →
      ∃ o ∈ options,
        r.delta = |o.delta| ∧ 0 ≤ r.delta ∧ r.delta ≤ c.minDelta ∧
        c.minPOP ≤ r.pop ∧ r.pop ≤ c.maxPOP ∧
        r.is_active = true ∧
        r.premium_percentage = calculatePremiumPercentage o.premium underlyingPrice ∧
        r.breakeven = calculateBreakeven o.strike o.premium ∧
        r.max_loss = calculateMaxLoss o.strike o.premium := by
  intro c now sym earn opts S r hr
  unfold processSymbol at hr
  by_cases hS : S ≤ 0
  · rw [if_pos hS] at hr
    simp at hr
  · rw [if_neg hS] at hr
    rw [List.mem_filterMap] at hr
    obtain ⟨o, ho, hfo⟩ := hr
    by_cases hc : meetsBasicCriteria c now o S earn.date
    · rw [if_pos hc] at hfo
      by_cases hp : popOf now S o < c.minPOP ∨ c.maxPOP < popOf now S o
      · rw [if_pos hp] at hfo
        exact absurd hfo (by simp)
      · rw [if_neg hp] at hfo
        push_neg at hp
        have hr2 : mkRecommendation sym earn now S o (popOf now S o) = r := by
          injection hfo
        subst hr2
        exact ⟨o, ho, rfl, abs_nonneg _, hc.1, hp.1, hp.2, rfl, rfl, rfl, rfl⟩
    · rw [if_neg hc] at hfo
      exact absurd hfo (by simp)

/-- Witness for C10: a concrete run of `processSymbol` that emits one
recommendation, together with the invariants at that recommendation. -/
theorem processSymbol_invariants_witness :
    recW ∈ processSymbol cfgW 0 ("ABC") earnW [optW] 100 ∧
    ∃ o ∈ [optW],
      recW.delta = |o.delta| ∧ 0 ≤ recW.delta ∧ recW.delta ≤ cfgW.minDelta ∧
      cfgW.minPOP ≤ recW.pop ∧ recW.pop ≤ cfgW.maxPOP ∧
      recW.is_active = true ∧
      recW.premium_percentage = calculatePremiumPercentage o.premium 100 ∧
      recW.breakeven = calculateBreakeven o.strike o.premium ∧
      recW.max_loss = calculateMaxLoss o.strike o.premium := by
  have hT : calculateTimeToExpiry 0 optW.expiration = 0 := by
    show calculateTimeToExpiry 0 0 = 0
    unfold calculateTimeToExpiry
    norm_num
  have hpop : popOf 0 100 optW = 0 := by
    unfold popOf
    rw [hT]
    unfold calculatePOP
    rw [if_pos (Or.inl le_rfl)]
  have hcrit : meetsBasicCriteria cfgW 0 optW 100 earnW.date := by
    refine ⟨?_, ?_, ?_, ?_, ?_, ?_, ?_, ?_, ?_⟩
    · show |(-0.5 : ℝ)| ≤ 1
      rw [abs_of_neg] <;> norm_num
    · show (0 : ℝ) ≤ calculatePremiumPercentage 1 100
      unfold calculatePremiumPercentage
      rw [if_neg (by norm_num : ¬ (100 : ℝ) ≤ 0)]
      norm_num
    · show (0 : ℤ) ≤ daysToExpiry 0 0
      unfold daysToExpiry
      norm_num
    · show daysToExpiry 0 0 ≤ (0 : ℤ)
      unfold daysToExpiry
      norm_num
    · show (-1 : ℝ) < 0
      norm_num
    · show (0 : ℝ) ≤ 10
      norm_num
    · show (0 : ℝ) ≤ 50
      norm_num
    · show (0 : ℝ) < 1
      norm_num
    · show (1 : ℝ) ≤ 100 * 0.1
      norm_num
  have hband : ¬ (popOf 0 100 optW < cfgW.minPOP ∨ cfgW.maxPOP < popOf 0 100 optW) := by
    rw [hpop]
    push_neg
    constructor
    · show (-1 : ℝ) ≤ 0
      norm_num
    · show (0 : ℝ) ≤ 1
      norm_num
  have hmem : recW ∈ processSymbol cfgW 0 ("ABC") earnW [optW] 100 := by
    unfold processSymbol
    rw [if_neg (by norm_num : ¬ (100 : ℝ) ≤ 0)]
    rw [List.mem_filterMap]
    refine ⟨optW, List.mem_cons_self _ _, ?_⟩
    rw [if_pos hcrit, if_neg hband]
    rfl
  exact ⟨hmem, processSymbol_invariants cfgW 0 ("ABC") earnW [optW] 100 recW hmem⟩

/-- C9 counterexample: an entry whose `marketCap` field is the falsy 0
bypasses the market-cap floor of `prioritizeSymbols` and its symbol is
returned even though its market capitalization is below
`minMarketCap`. -/
theorem prioritizeSymbols_marketcap_counterexample :
    prioritizeSymbols defaultCriteria [earnLowCap] = ["ABCD"] ∧
    earnLowCap.marketCap < defaultCriteria.minMarketCap := by
  constructor
  · have hpass : passesPriorityFilter defaultCriteria earnLowCap := by
      refine ⟨by decide, by decide, by decide, by decide, by decide, by decide, ?_⟩
      intro h
      exact absurd rfl h
    have h1 : List.filter (fun e => decide (passesPriorityFilter defaultCriteria e))
        [earnLowCap] = [earnLowCap] := by
      simp only [List.filter_cons, List.filter_nil, decide_eq_true_eq]
      rw [if_pos hpass]
    have h2 : prioritizeScored defaultCriteria [earnLowCap] = [scoreEarning earnLowCap] := by
      unfold prioritizeScored
      rw [h1]
      rfl
    unfold prioritizeSymbols
    rw [h2]
    rfl
  · show (0 : ℝ) < 1000000000
    norm_num

/-- C9 amended: `prioritizeSymbols` returns at most `maxSymbolsToProcess`
symbols, sorted descending by priority score, and every returned entry
passes the ticker-syntax rules; the market-cap floor holds whenever the
entry's `marketCap` field is truthy (nonzero), and is bypassed for a falsy
`marketCap`. -/
theorem prioritizeSymbols_properties (c : Criteria) (l : List Earning) :
    (prioritizeScored c l).length ≤ c.maxSymbolsToProcess ∧
    List.Sorted scoreDesc (prioritizeScored c l) ∧
    prioritizeSymbols c l = (prioritizeScored c l).map (fun x => x.symbol) ∧
    ∀ x ∈ prioritizeScored c l,
      x.symbol = x.earning.symbol ∧
      1 ≤ x.earning.symbol.length ∧ x.earning.symbol.length ≤ 5 ∧
      strIncludes x.earning.symbol (".") = false ∧
      strIncludes x.earning.symbol ("-") = false ∧
      strIncludes x.earning.symbol ("/") = false ∧
      hasDigit x.earning.symbol = false ∧
      (x.earning.marketCap ≠ 0 → c.minMarketCap ≤ x.earning.marketCap) := by
  refine ⟨?_, ?_, rfl, ?_⟩
  · unfold prioritizeScored
    exact List.length_take_le _ _
  · unfold prioritizeScored
    exact List.Pairwise.sublist (List.take_sublist _ _)
      (List.sorted_insertionSort scoreDesc _)
  · intro x hx
    unfold prioritizeScored at hx
    have hx2 := List.take_subset _ _ hx
    have hx3 : x ∈ (List.filter (fun e => decide (passesPriorityFilter c e)) l).map
        scoreEarning :=
      (List.perm_insertionSort scoreDesc _).mem_iff.mp hx2
    rw [List.mem_map] at hx3
    obtain ⟨e, he, hxe⟩ := hx3
    have hpass : passesPriorityFilter c e := of_decide_eq_true ((List.mem_filter.mp he).2)
    subst hxe
    obtain ⟨p1, p2, p3, p4, p5, p6, p7⟩ := hpass
    exact ⟨rfl, p1, p2, p3, p4, p5, p6, p7⟩

/-- Witness for C9's amended statement at a concrete high-cap entry. -/
theorem prioritizeSymbols_properties_witness :
    scoreEarning earnBigCap ∈ prioritizeScored defaultCriteria [earnBigCap] ∧
    ((scoreEarning earnBigCap).symbol = (scoreEarning earnBigCap).earning.symbol ∧
      1 ≤ (scoreEarning earnBigCap).earning.symbol.length ∧
      (scoreEarning earnBigCap).earning.symbol.length ≤ 5 ∧
      strIncludes (scoreEarning earnBigCap).earning.symbol (".") = false ∧
      strIncludes (scoreEarning earnBigCap).earning.symbol ("-") = false ∧
      strIncludes (scoreEarning earnBigCap).earning.symbol ("/") = false ∧
      hasDigit (scoreEarning earnBigCap).earning.symbol = false ∧
      ((scoreEarning earnBigCap).earning.marketCap ≠ 0 →
        defaultCriteria.minMarketCap ≤ (scoreEarning earnBigCap).earning.marketCap)) := by
  have hpass : passesPriorityFilter defaultCriteria earnBigCap := by
    refine ⟨by decide, by decide, by decide, by decide, by decide, by decide, ?_⟩
    intro _
    show (1000000000 : ℝ) ≤ 2000000000
    norm_num
  have h1 : List.filter (fun e => decide (passesPriorityFilter defaultCriteria e))
      [earnBigCap] = [earnBigCap] := by
    simp only [List.filter_cons, List.filter_nil, decide_eq_true_eq]
    rw [if_pos hpass]
  have hmem : scoreEarning earnBigCap ∈ prioritizeScored defaultCriteria [earnBigCap] := by
    unfold prioritizeScored
    rw [h1]
    show scoreEarning earnBigCap ∈ [scoreEarning earnBigCap]
    exact List.mem_cons_self _ _
  exact ⟨hmem,
    (prioritizeSymbols_properties defaultCriteria [earnBigCap]).2.2.2 (scoreEarning earnBigCap)
      hmem⟩

/-- Filtering with a stronger predicate keeps at most as many elements. -/
theorem length_filter_le_of_imp {α : Type} (l : List α) (p q : α → Bool)
    (h : ∀ x ∈ l, p x = true → q x = true) :
    (l.filter p).length ≤ (l.filter q).length := by
  induction l with
  | nil => simp
  | cons a l ih =>
    have ih2 := ih (fun x hx hpx => h x (List.mem_cons_of_mem a hx) hpx)
    by_cases hp : p a = true
    · have hq := h a (List.mem_cons_self a l) hp
      rw [List.filter_cons, List.filter_cons, if_pos hp, if_pos hq]
      simp only [List.length_cons]
      omega
    · rw [List.filter_cons, if_neg hp]
      by_cases hq : q a = true
      · rw [List.filter_cons, if_pos hq]
        simp only [List.length_cons]
        omega
      · rw [List.filter_cons, if_neg hq]
        exact ih2

/-- Window counts add over list concatenation. -/
theorem windowCount_append (w T : ℤ) (l1 l2 : List ℤ) :
    windowCount w T (l1 ++ l2) = windowCount w T l1 + windowCount w T l2 := by
  unfold windowCount
  rw [List.filter_append, List.length_append]

/-- Window counts add over a leading element. -/
theorem windowCount_cons (w T t : ℤ) (l : List ℤ) :
    windowCount w T (t :: l) = windowCount w T [t] + windowCount w T l :=
  windowCount_append w T [t] l

/-- Re-filtering an already window-filtered list at a later clock equals
filtering the original list at the later clock. -/
theorem filter_filter_absorb (w prev now : ℤ) (h : prev ≤ now) (l : List ℤ) :
    (l.filter (fun t => decide (prev - w < t))).filter (fun t => decide (now - w < t)) =
    l.filter (fun t => decide (now - w < t)) := by
  induction l with
  | nil => rfl
  | cons a l ih =>
    simp only [List.filter_cons, decide_eq_true_eq]
    by_cases h2 : now - w < a
    · have h1 : prev - w < a := by omega
      rw [if_pos h1, if_pos h2, List.filter_cons]
      simp only [decide_eq_true_eq]
      rw [if_pos h2, ih]
    · by_cases h1 : prev - w < a
      · rw [if_pos h1, if_neg h2, List.filter_cons]
        simp only [decide_eq_true_eq]
        rw [if_neg h2]
        exact ih
      · rw [if_neg h1, if_neg h2]
        exact ih

/-- A granted attempt contributes its timestamp to the granted list. -/
theorem grantedTimes_cons_granted (t : ℤ) (l : List (ℤ × RLOutcome)) :
    grantedTimes ((t, RLOutcome.granted) :: l) = t :: grantedTimes l := rfl

/-- A non-granted attempt contributes nothing to the granted list. -/
theorem grantedTimes_cons_of_ne (t : ℤ) (o : RLOutcome) (h : o ≠ RLOutcome.granted)
    (l : List (ℤ × RLOutcome)) :
    grantedTimes ((t, o) :: l) = grantedTimes l := by
  unfold grantedTimes
  rw [List.filterMap_cons]
  dsimp only
  rw [if_neg h]

/-- Main invariant of the sliding-window limiter: running attempts with
non-decreasing clocks from a state whose retained timestamps are the
window filter of an admissible history keeps every trailing-window count
of history plus new grants within `maxRequests`. -/
theorem runLimiter_window_aux (cfg : RLConfig) (hW : 0 < cfg.windowMs) :
    ∀ (attempts : List (ℤ × ℤ)) (hist : List ℤ) (prev : ℤ) (rc : ℕ),
      attempts.Pairwise (fun a b => a.1 ≤ b.1) →
      (∀ a ∈ attempts, prev ≤ a.1) →
      (∀ t ∈ hist, t ≤ prev) →
      (∀ T, windowCount cfg.windowMs T hist ≤ cfg.maxRequests) →
      ∀ T, windowCount cfg.windowMs T
          (hist ++
            grantedTimes
              (runLimiter cfg ⟨hist.filter (fun t => decide (prev - cfg.windowMs < t)), rc⟩
                attempts).2) ≤ cfg.maxRequests := by
  intro attempts
  induction attempts with
  | nil =>
    intro hist prev rc _ _ _ h4 T
    simpa [runLimiter, grantedTimes] using h4 T
  | cons a rest ih =>
    intro hist prev rc hpair hlb hhist h4 T
    obtain ⟨now, b⟩ := a
    have hprevnow : prev ≤ now := hlb (now, b) (List.mem_cons_self _ _)
    rw [List.pairwise_cons] at hpair
    obtain ⟨hhead, hpairrest⟩ := hpair
    have hhead2 : ∀ x ∈ rest, now ≤ x.1 := fun x hx => hhead x hx
    have hhist2 : ∀ t ∈ hist, t ≤ now := fun t ht => le_trans (hhist t ht) hprevnow
    have hfil : rlFilter cfg now (hist.filter (fun t => decide (prev - cfg.windowMs < t))) =
        hist.filter (fun t => decide (now - cfg.windowMs < t)) := by
      unfold rlFilter
      exact filter_filter_absorb cfg.windowMs prev now hprevnow hist
    dsimp only [runLimiter]
    by_cases hcap :
        cfg.maxRequests ≤ (hist.filter (fun t => decide (now - cfg.windowMs < t))).length
    · by_cases hretry : cfg.maxRetries ≤ rc
      · have hsnd : (checkLimitStep cfg
            ⟨hist.filter (fun t => decide (prev - cfg.windowMs < t)), rc⟩ now b).2 =
            ⟨hist.filter (fun t => decide (now - cfg.windowMs < t)), 0⟩ := by
          simp only [checkLimitStep]
          rw [hfil, if_pos hcap, if_pos hretry]
        have hfst : (checkLimitStep cfg
            ⟨hist.filter (fun t => decide (prev - cfg.windowMs < t)), rc⟩ now b).1 ≠
            RLOutcome.granted := by
          simp only [checkLimitStep]
          rw [hfil, if_pos hcap, if_pos hretry]
          simp
        rw [hsnd, grantedTimes_cons_of_ne _ _ hfst]
        exact ih hist now 0 hpairrest hhead2 hhist2 h4 T
      · have hsnd : (checkLimitStep cfg
            ⟨hist.filter (fun t => decide (prev - cfg.windowMs < t)), rc⟩ now b).2 =
            ⟨hist.filter (fun t => decide (now - cfg.windowMs < t)), rc + 1⟩ := by
          simp only [checkLimitStep]
          rw [hfil, if_pos hcap, if_neg hretry]
        have hfst : (checkLimitStep cfg
            ⟨hist.filter (fun t => decide (prev - cfg.windowMs < t)), rc⟩ now b).1 ≠
            RLOutcome.granted := by
          simp only [checkLimitStep]
          rw [hfil, if_pos hcap, if_neg hretry]
          simp
        rw [hsnd, grantedTimes_cons_of_ne _ _ hfst]
        exact ih hist now (rc + 1) hpairrest hhead2 hhist2 h4 T
    · have hlt : (hist.filter (fun t => decide (now - cfg.windowMs < t))).length <
          cfg.maxRequests := Nat.lt_of_not_le hcap
      have hsnd : (checkLimitStep cfg
          ⟨hist.filter (fun t => decide (prev - cfg.windowMs < t)), rc⟩ now b).2 =
          ⟨hist.filter (fun t => decide (now - cfg.windowMs < t)) ++ [now], 0⟩ := by
        simp only [checkLimitStep]
        rw [hfil, if_neg hcap]
      have hfst : (checkLimitStep cfg
          ⟨hist.filter (fun t => decide (prev - cfg.windowMs < t)), rc⟩ now b).1 =
          RLOutcome.granted := by
        simp only [checkLimitStep]
        rw [hfil, if_neg hcap]
      rw [hsnd, hfst, grantedTimes_cons_granted]
      have hnewstate : hist.filter (fun t => decide (now - cfg.windowMs < t)) ++ [now] =
          (hist ++ [now]).filter (fun t => decide (now - cfg.windowMs < t)) := by
        rw [List.filter_append]
        congr 1
        simp only [List.filter_cons, List.filter_nil, decide_eq_true_eq]
        rw [if_pos (by omega : now - cfg.windowMs < now)]
      rw [hnewstate]
      have hhist3 : ∀ t ∈ hist ++ [now], t ≤ now := by
        intro t ht
        rcases List.mem_append.mp ht with h | h
        · exact hhist2 t h
        · rw [List.mem_singleton] at h
          exact le_of_eq h
      have h42 : ∀ T2 : ℤ, windowCount cfg.windowMs T2 (hist ++ [now]) ≤ cfg.maxRequests := by
        intro T2
        rw [windowCount_append]
        by_cases hin : T2 - cfg.windowMs < now ∧ now ≤ T2
        · have hc1 : windowCount cfg.windowMs T2 [now] = 1 := by
            unfold windowCount
            simp [hin]
          have hc2 : windowCount cfg.windowMs T2 hist ≤
              (hist.filter (fun t => decide (now - cfg.windowMs < t))).length := by
            unfold windowCount
            apply length_filter_le_of_imp
            intro x hx hpx
            simp only [decide_eq_true_eq] at hpx ⊢
            omega
          omega
        · have hc1 : windowCount cfg.windowMs T2 [now] = 0 := by
            unfold windowCount
            simp [hin]
          have hfour := h4 T2
          omega
      have ihc := ih (hist ++ [now]) now 0 hpairrest hhead2 hhist3 h42 T
      rw [windowCount_append, windowCount_append] at ihc
      rw [windowCount_append, windowCount_cons]
      omega

/-- C8: an attempt with spare window capacity is granted immediately,
records its timestamp and resets the retry counter; an over-capacity
attempt below the retry budget is throttled, keeps only the windowed
timestamps and increments the retry counter; an over-capacity attempt at
the retry budget fails with the suggested wait, resetting the counter; and
along any run with non-decreasing clocks from a fresh limiter, at most
`maxRequests` acquisitions fall inside any trailing window. -/
theorem checkLimit_spec :
    (∀ (cfg : RLConfig) (st : RLState) (now b : ℤ),
      (rlFilter cfg now st.requests).length < cfg.maxRequests →
      checkLimitStep cfg st now b =
        (RLOutcome.granted, ⟨rlFilter cfg now st.requests ++ [now], 0⟩)) ∧
    (∀ (cfg : RLConfig) (st : RLState) (now b : ℤ),
      cfg.maxRequests ≤ (rlFilter cfg now st.requests).length →
      st.retryCount < cfg.maxRetries →
      ∃ d : ℤ, checkLimitStep cfg st now b =
        (RLOutcome.throttled d, ⟨rlFilter cfg now st.requests, st.retryCount + 1⟩)) ∧
    (∀ (cfg : RLConfig) (st : RLState) (now b : ℤ),
      cfg.maxRequests ≤ (rlFilter cfg now st.requests).length →
      cfg.maxRetries ≤ st.retryCount →
      ∃ d : ℤ, checkLimitStep cfg st now b =
        (RLOutcome.failed d, ⟨rlFilter cfg now st.requests, 0⟩)) ∧
    (∀ cfg : RLConfig, 0 < cfg.windowMs →
      ∀ attempts : List (ℤ × ℤ), attempts.Pairwise (fun a b => a.1 ≤ b.1) →
      ∀ T : ℤ,
        windowCount cfg.windowMs T (grantedTimes (runLimiter cfg ⟨[], 0⟩ attempts).2) ≤
          cfg.maxRequests) := by
  refine ⟨?_, ?_, ?_, ?_⟩
  · intro cfg st now b h
    simp only [checkLimitStep]
    rw [if_neg (not_le.mpr h)]
  · intro cfg st now b h1 h2
    refine ⟨max (cfg.windowMs - (now - ((rlFilter cfg now st.requests).min?.getD 0))) b, ?_⟩
    simp only [checkLimitStep]
    rw [if_pos h1, if_neg (not_le.mpr h2)]
  · intro cfg st now b h1 h2
    refine ⟨max (cfg.windowMs - (now - ((rlFilter cfg now st.requests).min?.getD 0))) b, ?_⟩
    simp only [checkLimitStep]
    rw [if_pos h1, if_pos h2]
  · intro cfg hW attempts hpair T
    cases attempts with
    | nil => simp [runLimiter, grantedTimes, windowCount]
    | cons a rest =>
      rw [List.pairwise_cons] at hpair
      have hlb : ∀ x ∈ a :: rest, a.1 ≤ x.1 := by
        intro x hx
        rcases List.mem_cons.mp hx with h | h
        · rw [h]
        · exact hpair.1 x h
      have h := runLimiter_window_aux cfg hW (a :: rest) [] a.1 0
        (List.pairwise_cons.mpr hpair) hlb (by simp) (fun T2 => by simp [windowCount]) T
      simpa using h

/-- Witness for C8: concrete granted, throttled and failed attempts, and a
concrete two-attempt run with its window bound. -/
theorem checkLimit_spec_witness :
    ((rlFilter ⟨1, 10, 3⟩ 5 (RLState.requests ⟨[], 0⟩)).length < 1 ∧
      checkLimitStep ⟨1, 10, 3⟩ ⟨[], 0⟩ 5 0 =
        (RLOutcome.granted, ⟨rlFilter ⟨1, 10, 3⟩ 5 (RLState.requests ⟨[], 0⟩) ++ [5], 0⟩)) ∧
    (1 ≤ (rlFilter ⟨1, 10, 3⟩ 6 (RLState.requests ⟨[5], 0⟩)).length ∧
      RLState.retryCount ⟨[5], 0⟩ < 3 ∧
      ∃ d : ℤ, checkLimitStep ⟨1, 10, 3⟩ ⟨[5], 0⟩ 6 0 =
        (RLOutcome.throttled d, ⟨rlFilter ⟨1, 10, 3⟩ 6 (RLState.requests ⟨[5], 0⟩), 0 + 1⟩)) ∧
    (1 ≤ (rlFilter ⟨1, 10, 3⟩ 6 (RLState.requests ⟨[5], 3⟩)).length ∧
      (3 : ℕ) ≤ RLState.retryCount ⟨[5], 3⟩ ∧
      ∃ d : ℤ, checkLimitStep ⟨1, 10, 3⟩ ⟨[5], 3⟩ 6 0 =
        (RLOutcome.failed d, ⟨rlFilter ⟨1, 10, 3⟩ 6 (RLState.requests ⟨[5], 3⟩), 0⟩)) ∧
    ((0 : ℤ) < 10 ∧
      List.Pairwise (fun a b : ℤ × ℤ => a.1 ≤ b.1) [(0, 0), (1, 0)] ∧
      windowCount 10 1
        (grantedTimes (runLimiter ⟨1, 10, 3⟩ ⟨[], 0⟩ [(0, 0), (1, 0)]).2) ≤ 1) :=
  ⟨⟨by decide, checkLimit_spec.1 ⟨1, 10, 3⟩ ⟨[], 0⟩ 5 0 (by decide)⟩,
   ⟨by decide, by decide, checkLimit_spec.2.1 ⟨1, 10, 3⟩ ⟨[5], 0⟩ 6 0 (by decide) (by decide)⟩,
   ⟨by decide, by decide, checkLimit_spec.2.2.1 ⟨1, 10, 3⟩ ⟨[5], 3⟩ 6 0 (by decide) (by decide)⟩,
   ⟨by decide, by decide,
    checkLimit_spec.2.2.2 ⟨1, 10, 3⟩ (by decide) [(0, 0), (1, 0)] (by decide) 1⟩⟩
